import Mathlib

/-!
Shallow embedding of the UnitSelectionSystem of the Chariot engine
(src/ecs/system/unit_selection_system.rs) together with proofs about it.

External collaborators that are not part of this repository slice (the
grid partition, the path finder, the view projector, the selection-box
geometry of util::unit and the static empires database) are modelled as
abstract function fields of an environment record: the system under
verification only calls them, so the theorems below hold for every
possible behaviour of those collaborators.  Fixed-point scalars are
modelled as integers: the system only adds, subtracts and doubles them,
operations which fixed-point arithmetic performs exactly.
-/

namespace Chariot

/-- Two-dimensional vector (nalgebra Vector2; also used for screen pixels). -/
structure Vector2 where
  x : Int
  y : Int
  deriving DecidableEq

instance : Add Vector2 := ⟨fun a b => ⟨a.x + b.x, a.y + b.y⟩⟩

/-- Three-dimensional world-space vector (types::Vector3). -/
structure Vector3 where
  x : Int
  y : Int
  z : Int
  deriving DecidableEq

instance : Sub Vector3 := ⟨fun a b => ⟨a.x - b.x, a.y - b.y, a.z - b.z⟩⟩

/-- media::KeyState: state of a key or mouse button in the input snapshot. -/
inductive KeyState where
  | Up
  | Down
  | TransitionUp
  | TransitionDown
  deriving DecidableEq

/-- dat::InteractionMode; the system only distinguishes NonInteracting. -/
inductive InteractionMode where
  | Normal
  | NonInteracting
  deriving DecidableEq

/-- resource::DrsKey; only the Interfac archive is used by this system. -/
inductive DrsKey where
  | Interfac
  deriving DecidableEq

/-- Battle parameters of a unit type: attacks and armors are lists of
(class, value) pairs. -/
structure BattleParams where
  attacks : List (Nat × Int)
  armors : List (Nat × Int)
  deriving DecidableEq

/-- The slice of dat unit info read by this system. -/
structure UnitInfo where
  battle_params : Option BattleParams
  interaction_mode : InteractionMode
  terrain_restriction : Nat
  deriving DecidableEq

/-- ecs::UnitComponent fields read by this system. -/
structure UnitComponent where
  civilization_id : Nat
  unit_id : Nat
  player_id : Nat
  deriving DecidableEq

/-- ecs::TransformComponent: position and a rotation scalar. -/
structure TransformComponent where
  position : Vector3
  rot : Int
  deriving DecidableEq

/-- One entity together with the component storages that the system joins
over: OnScreenComponent and SelectedUnitComponent are presence flags,
UnitComponent and TransformComponent are optional attribute bags.  The
world is a list of these; specs iteration order is the list order. -/
structure WorldEntity where
  id : Nat
  on_screen : Bool
  unit : Option UnitComponent
  transform : Option TransformComponent
  selected : Bool
  deriving DecidableEq

/-- A path returned by the external path finder; opaque to this system. -/
abbrev Path := List Vector3

/-- action::MoveToPositionParams. -/
structure MoveToPositionParams where
  path : Path
  deriving DecidableEq

/-- action::Action variants queued by this system. -/
inductive Action where
  | ClearQueue
  | MoveToPosition (params : MoveToPositionParams)
  deriving DecidableEq

/-- ecs::DecalComponent as constructed by DecalComponent::new.
Modelled from the spec: the component definition itself is outside this
slice; its first constructor argument is the image index distinguishing
visual variants, the others are the DRS archive key and the SLP id. -/
structure DecalComponent where
  imageIdx : Nat
  drsKey : DrsKey
  slpId : Nat
  deriving DecidableEq

/-- A decal entity spawned by arg.create() plus its two inserted
components. -/
structure SpawnedDecal where
  transform : TransformComponent
  decal : DecalComponent
  deriving DecidableEq

/-- Terrain resource: only elevation_range() is read; .2 is the maximum. -/
structure Terrain where
  elevation_range : Int × Int
  deriving DecidableEq

/-- Viewport resource: only top_left_i32() is read. -/
structure Viewport where
  top_left : Vector2
  deriving DecidableEq

/-- ViewProjector resource, modelled by its two unprojection functions. -/
structure ViewProjector where
  unproject : Vector2 → Terrain → Vector3
  unproject_at_elevation : Vector2 → Int → Vector3

/-- MouseState resource: cursor position plus the per-button key states
returned by key_states.key_state(Left / Right). -/
structure MouseState where
  position : Vector2
  leftKeyState : KeyState
  rightKeyState : KeyState

/-- KeyboardKeyStates resource: is_up for the two modifier keys. -/
structure KeyboardKeyStates where
  shiftLeftUp : Bool
  ctrlLeftUp : Bool
  deriving DecidableEq

/-- The MouseRay struct of the source. -/
structure MouseRay where
  world_coord : Vector3
  origin : Vector3
  direction : Vector3
  deriving DecidableEq

/-- Direct translation of fn calculate_mouse_ray.  elevation_range().1 in
Rust is the second tuple component, hence .2 here. -/
def calculate_mouse_ray (viewport : Viewport) (mouse_state : MouseState)
    (view_projector : ViewProjector) (terrain : Terrain) : MouseRay :=
  let viewport_pos := viewport.top_left
  let mouse_pos := mouse_state.position + viewport_pos
  let origin_elevation : Int := terrain.elevation_range.2 * 2
  let world_coord := view_projector.unproject mouse_pos terrain
  let origin := view_projector.unproject_at_elevation mouse_pos origin_elevation
  let direction := world_coord - origin
  { world_coord := world_coord, origin := origin, direction := direction }

/-- The environment of external collaborators and read-only resources:
the empires database lookup self.empires.unit, the local player id,
GridPartition::query_single_cell, the composite
unit_util::selection_box(info, trans).intersects_ray(origin, dir),
PathFinder::find_path with terrain and occupied tiles already applied,
and the resources consumed by calculate_mouse_ray. -/
structure Env where
  unitLookup : Nat → Nat → UnitInfo
  local_player_id : Nat
  query_single_cell : Vector2 → List Nat
  boxIntersectsRay : UnitInfo → TransformComponent → Vector3 → Vector3 → Bool
  find_path : Vector3 → Vector3 → Nat → Path
  viewport : Viewport
  view_projector : ViewProjector
  terrain : Terrain

/-- The set of attack classes of battle params (HashSet of the first
components of the attack list). -/
def attackClassesOf (bp : BattleParams) : List Nat := bp.attacks.map Prod.fst

/-- The set of armor classes of battle params. -/
def armorClassesOf (bp : BattleParams) : List Nat := bp.armors.map Prod.fst

/-- Body of the inner loop of the targetability pass for one candidate:
all the continue conditions of the f_on_screen loop, then the precise
ray test and the attack/armor compatibility rule. -/
def candidateTargetable (env : Env) (ray : MouseRay) (cellIds : List Nat)
    (selId : Nat) (attack_classes : List Nat) (other : WorldEntity) : Bool :=
  match other.transform, other.unit with
  | some trans_other, some unit_other =>
    other.on_screen &&
    decide (other.id ∈ cellIds) &&
    decide (other.id ≠ selId) &&
    decide (unit_other.player_id ≠ env.local_player_id) &&
    (let info_other := env.unitLookup unit_other.civilization_id unit_other.unit_id
     decide (info_other.interaction_mode ≠ InteractionMode.NonInteracting) &&
     (match info_other.battle_params with
      | none => false
      | some bp_other =>
        env.boxIntersectsRay info_other trans_other ray.origin ray.direction &&
        (let armor_classes := armorClassesOf bp_other
         armor_classes.isEmpty || attack_classes.any fun c => decide (c ∈ armor_classes))))
  | _, _ => false

/-- Body of the outer f_selected loop for one selected entity: skip it
when it has no battle params or an empty attack-class set, otherwise
scan the world for a targetable candidate. -/
def attackerFindsTarget (env : Env) (ray : MouseRay) (cellIds : List Nat)
    (world : List WorldEntity) (sel : WorldEntity) : Bool :=
  sel.selected &&
  match sel.unit with
  | none => false
  | some u =>
    match (env.unitLookup u.civilization_id u.unit_id).battle_params with
    | none => false
    | some bp =>
      let attack_classes := attackClassesOf bp
      !attack_classes.isEmpty &&
      world.any (candidateTargetable env ray cellIds sel.id attack_classes)

/-- The cursor_over_targetable_entity flag computed by the doubly nested
short-circuiting loop; as a boolean it is the existence of a hit. -/
def cursorOverTargetable (env : Env) (ray : MouseRay) (cellIds : List Nat)
    (world : List WorldEntity) : Bool :=
  world.any (attackerFindsTarget env ray cellIds world)

/-- Eligibility test of the left-click selection loop: on screen with a
unit and transform, not NonInteracting, and the selection box intersects
the mouse ray. -/
def hitEligible (env : Env) (ray : MouseRay) (e : WorldEntity) : Bool :=
  match e.unit, e.transform with
  | some u, some t =>
    e.on_screen &&
    (let unit_info := env.unitLookup u.civilization_id u.unit_id
     decide (unit_info.interaction_mode ≠ InteractionMode.NonInteracting) &&
     env.boxIntersectsRay unit_info t ray.origin ray.direction)
  | _, _ => false

/-- selected_units_comp.clear(). -/
def clearAll (world : List WorldEntity) : List WorldEntity :=
  world.map fun e => { e with selected := false }

/-- The left-click selection loop: insert SelectedUnitComponent on the
first eligible entity whose box intersects the ray, then break. -/
def selectFirst (env : Env) (ray : MouseRay) : List WorldEntity → List WorldEntity
  | [] => []
  | e :: rest =>
    if hitEligible env ray e then { e with selected := true } :: rest
    else e :: selectFirst env ray rest

/-- The whole left-button block: on TransitionUp, optionally clear the
selection (shift not held) and select the first ray hit. -/
def selectionPhase (env : Env) (mouse : MouseState) (keyboard : KeyboardKeyStates)
    (ray : MouseRay) (world : List WorldEntity) : List WorldEntity :=
  if mouse.leftKeyState = KeyState.TransitionUp then
    selectFirst env ray (if keyboard.shiftLeftUp then clearAll world else world)
  else world

/-- The queue_for_entity calls the right-button loop issues for one
entity of the join (selected units with unit and transform components). -/
def commandsFor (env : Env) (ray : MouseRay) (keyboard : KeyboardKeyStates)
    (e : WorldEntity) : List (Nat × Action) :=
  match e.unit, e.transform with
  | some u, some t =>
    if e.selected then
      if u.player_id = env.local_player_id then
        let unit_info := env.unitLookup u.civilization_id u.unit_id
        let path := env.find_path t.position ray.world_coord unit_info.terrain_restriction
        (if keyboard.ctrlLeftUp then [(e.id, Action.ClearQueue)] else []) ++
          [(e.id, Action.MoveToPosition ⟨path⟩)]
      else []
    else []
  | _, _ => []

/-- Direct translation of the right-button loop body: the ActionBatcher
is modelled as the list of queue_for_entity calls in order, paired with
the moving_unit flag. -/
def commandQueueLoop (env : Env) (ray : MouseRay) (keyboard : KeyboardKeyStates) :
    List WorldEntity → List (Nat × Action) × Bool → List (Nat × Action) × Bool
  | [], acc => acc
  | e :: rest, acc =>
    match e.unit, e.transform with
    | some u, some t =>
      if e.selected then
        if u.player_id ≠ env.local_player_id then
          commandQueueLoop env ray keyboard rest acc
        else
          let unit_info := env.unitLookup u.civilization_id u.unit_id
          let path := env.find_path t.position ray.world_coord unit_info.terrain_restriction
          let b1 := if keyboard.ctrlLeftUp then acc.1 ++ [(e.id, Action.ClearQueue)] else acc.1
          commandQueueLoop env ray keyboard rest (b1 ++ [(e.id, Action.MoveToPosition ⟨path⟩)], true)
      else commandQueueLoop env ray keyboard rest acc
    | _, _ => commandQueueLoop env ray keyboard rest acc

/-- The whole right-button block: on TransitionUp run the loop over the
current selection, otherwise leave the batch alone with no moving unit. -/
def commandPhase (env : Env) (mouse : MouseState) (keyboard : KeyboardKeyStates)
    (ray : MouseRay) (world : List WorldEntity) (batch : List (Nat × Action)) :
    List (Nat × Action) × Bool :=
  if mouse.rightKeyState = KeyState.TransitionUp then
    commandQueueLoop env ray keyboard world (batch, false)
  else (batch, false)

/-- The attack-intent decal spawned by the targetability pass:
DecalComponent::new(1, Interfac, 50405) at world_coord. -/
def attackIntentDecal (pos : Vector3) : SpawnedDecal :=
  ⟨⟨pos, 0⟩, ⟨1, DrsKey.Interfac, 50405⟩⟩

/-- The move-intent decal spawned by the command queuer:
DecalComponent::new(0, Interfac, 50405) at world_coord. -/
def moveIntentDecal (pos : Vector3) : SpawnedDecal :=
  ⟨⟨pos, 0⟩, ⟨0, DrsKey.Interfac, 50405⟩⟩

/-- Observable result of one tick of UnitSelectionSystem::update. -/
structure UpdateResult where
  world : List WorldEntity
  batch : List (Nat × Action)
  decals : List SpawnedDecal
  deriving DecidableEq

/-- One tick of UnitSelectionSystem::update in source order: compute the
mouse ray once, query the grid cell under it, run the targetability
pass (spawning the attack decal), then the selection phase, then the
command phase over the updated selection (spawning the move decal). -/
def update (env : Env) (mouse : MouseState) (keyboard : KeyboardKeyStates)
    (world : List WorldEntity) (batch : List (Nat × Action))
    (decals : List SpawnedDecal) : UpdateResult :=
  let mouse_ray := calculate_mouse_ray env.viewport mouse env.view_projector env.terrain
  let entity_ids_in_cell :=
    env.query_single_cell ⟨mouse_ray.world_coord.x, mouse_ray.world_coord.y⟩
  let targetable := cursorOverTargetable env mouse_ray entity_ids_in_cell world
  let decals1 := if targetable then decals ++ [attackIntentDecal mouse_ray.world_coord] else decals
  let world1 := selectionPhase env mouse keyboard mouse_ray world
  let res := commandPhase env mouse keyboard mouse_ray world1 batch
  let decals2 := if res.2 then decals1 ++ [moveIntentDecal mouse_ray.world_coord] else decals1
  ⟨world1, res.1, decals2⟩

/-- Hypothetical variant evaluating the Command Queuer before the
Selection Updater, used to settle the order-independence claim: the
command phase reads the selection state from before the selection
phase. -/
def updateSwapped (env : Env) (mouse : MouseState) (keyboard : KeyboardKeyStates)
    (world : List WorldEntity) (batch : List (Nat × Action))
    (decals : List SpawnedDecal) : UpdateResult :=
  let mouse_ray := calculate_mouse_ray env.viewport mouse env.view_projector env.terrain
  let entity_ids_in_cell :=
    env.query_single_cell ⟨mouse_ray.world_coord.x, mouse_ray.world_coord.y⟩
  let targetable := cursorOverTargetable env mouse_ray entity_ids_in_cell world
  let decals1 := if targetable then decals ++ [attackIntentDecal mouse_ray.world_coord] else decals
  let res := commandPhase env mouse keyboard mouse_ray world batch
  let world1 := selectionPhase env mouse keyboard mouse_ray world
  let decals2 := if res.2 then decals1 ++ [moveIntentDecal mouse_ray.world_coord] else decals1
  ⟨world1, res.1, decals2⟩

/-- Per-entity FIFO view of the ActionBatcher: the actions queued for a
given entity id, in order. -/
def queueOf (batch : List (Nat × Action)) (entityId : Nat) : List Action :=
  (batch.filter fun p => decide (p.1 = entityId)).map Prod.snd

/-- Id of the first selection-eligible ray hit in iteration order. -/
def firstHitId (env : Env) (ray : MouseRay) : List WorldEntity → Option Nat
  | [] => none
  | e :: rest => if hitEligible env ray e then some e.id else firstHitId env ray rest

/-! Concrete fixtures used to instantiate the theorems below. -/

/-- A fixed mouse ray for instantiations. -/
def rayC : MouseRay := ⟨⟨0, 0, 0⟩, ⟨0, 0, 8⟩, ⟨0, 0, -8⟩⟩

/-- Terrain with maximum elevation 4. -/
def terrainC : Terrain := ⟨(0, 4)⟩

/-- A projector sending every pixel to the world origin on the terrain
and to elevation z when unprojecting at elevation z. -/
def projectorC : ViewProjector := ⟨fun _ _ => ⟨0, 0, 0⟩, fun _ e => ⟨0, 0, e⟩⟩

/-- Unit info with matching attack and armor class 3. -/
def infoPlain : UnitInfo := ⟨some ⟨[(3, 1)], [(3, 1)]⟩, InteractionMode.Normal, 0⟩

/-- An environment in which every unit has infoPlain, the local player
is 0, the cell under the cursor holds entity 2, and every selection box
intersects every ray. -/
def envC : Env :=
  { unitLookup := fun _ _ => infoPlain
    local_player_id := 0
    query_single_cell := fun _ => [2]
    boxIntersectsRay := fun _ _ _ _ => true
    find_path := fun _ _ _ => []
    viewport := ⟨⟨0, 0⟩⟩
    view_projector := projectorC
    terrain := terrainC }

/-- An entity owned by the local player, on screen, unselected. -/
def entLocal : WorldEntity := ⟨1, true, some ⟨0, 0, 0⟩, some ⟨⟨0, 0, 0⟩, 0⟩, false⟩

/-- A selected entity owned by the local player. -/
def entLocalSel : WorldEntity := ⟨1, true, some ⟨0, 0, 0⟩, some ⟨⟨0, 0, 0⟩, 0⟩, true⟩

/-- A hostile entity with id 2 (player 1), on screen. -/
def entHostile : WorldEntity := ⟨2, true, some ⟨0, 0, 1⟩, some ⟨⟨0, 0, 0⟩, 0⟩, false⟩

/-- Environment whose unit table has no battle parameters anywhere. -/
def envNoBp : Env := { envC with unitLookup := fun _ _ => ⟨none, InteractionMode.Normal, 0⟩ }

/-- Claim C8: calculate_mouse_ray is a pure function of pointer
position, viewport, projector and terrain; its world_coord is the
terrain unprojection of the cursor pixel, its origin is the
unprojection of the same pixel at twice the maximum terrain elevation,
and its direction is world_coord minus origin. -/
theorem calculate_mouse_ray_spec (viewport : Viewport) (mouse_state : MouseState)
    (view_projector : ViewProjector) (terrain : Terrain) :
    (calculate_mouse_ray viewport mouse_state view_projector terrain).world_coord =
      view_projector.unproject (mouse_state.position + viewport.top_left) terrain ∧
    (calculate_mouse_ray viewport mouse_state view_projector terrain).origin =
      view_projector.unproject_at_elevation (mouse_state.position + viewport.top_left)
        (terrain.elevation_range.2 * 2) ∧
    (calculate_mouse_ray viewport mouse_state view_projector terrain).direction =
      (calculate_mouse_ray viewport mouse_state view_projector terrain).world_coord -
        (calculate_mouse_ray viewport mouse_state view_projector terrain).origin :=
  ⟨rfl, rfl, rfl⟩

/-- Claim C7: a selected entity whose attack-class set is empty (no
battle parameters, or an empty attack list) is skipped by the
targetability pass and never marks the cursor as over a targetable
entity on its own account. -/
theorem empty_attacks_never_target (env : Env) (ray : MouseRay) (cellIds : List Nat)
    (world : List WorldEntity) (sel : WorldEntity) (u : UnitComponent)
    (hu : sel.unit = some u)
    (hbp : (env.unitLookup u.civilization_id u.unit_id).battle_params = none ∨
           ∃ bp, (env.unitLookup u.civilization_id u.unit_id).battle_params = some bp ∧
             bp.attacks = []) :
    attackerFindsTarget env ray cellIds world sel = false := by
  unfold attackerFindsTarget
  rw [hu]
  rcases hbp with h | ⟨bp, h, hatt⟩
  · simp [h]
  · simp [h, attackClassesOf, hatt]

/-- Witness for empty_attacks_never_target at a concrete input. -/
theorem empty_attacks_never_target_wit :
    attackerFindsTarget envNoBp rayC [2] [entHostile] entLocalSel = false :=
  empty_attacks_never_target envNoBp rayC [2] [entHostile] entLocalSel ⟨0, 0, 0⟩ rfl
    (Or.inl rfl)

/-- Mouse snapshot: left button released this tick. -/
def mouseLeftC : MouseState := ⟨⟨0, 0⟩, KeyState.TransitionUp, KeyState.Up⟩

/-- Mouse snapshot: right button released this tick. -/
def mouseRightC : MouseState := ⟨⟨0, 0⟩, KeyState.Up, KeyState.TransitionUp⟩

/-- Mouse snapshot: both buttons released this tick. -/
def mouseBothC : MouseState := ⟨⟨0, 0⟩, KeyState.TransitionUp, KeyState.TransitionUp⟩

/-- Mouse snapshot: no button edge this tick. -/
def mouseNoneC : MouseState := ⟨⟨0, 0⟩, KeyState.Up, KeyState.Up⟩

/-- Both modifier keys are up (neither modifier held). -/
def kbC : KeyboardKeyStates := ⟨true, true⟩

/-- The ray the fixtures produce (all fixture mouse snapshots share the
cursor position, so they all produce this ray). -/
def rayUC : MouseRay := calculate_mouse_ray envC.viewport mouseLeftC envC.view_projector envC.terrain

/-- The world component of an update is the selection phase applied to
the ray of this tick. -/
theorem update_world_eq (env : Env) (mouse : MouseState) (keyboard : KeyboardKeyStates)
    (world : List WorldEntity) (batch : List (Nat × Action)) (decals : List SpawnedDecal) :
    (update env mouse keyboard world batch decals).world =
      selectionPhase env mouse keyboard
        (calculate_mouse_ray env.viewport mouse env.view_projector env.terrain) world := rfl

/-- The batch component of an update is the command phase applied to the
post-selection world. -/
theorem update_batch_eq (env : Env) (mouse : MouseState) (keyboard : KeyboardKeyStates)
    (world : List WorldEntity) (batch : List (Nat × Action)) (decals : List SpawnedDecal) :
    (update env mouse keyboard world batch decals).batch =
      (commandPhase env mouse keyboard
        (calculate_mouse_ray env.viewport mouse env.view_projector env.terrain)
        (selectionPhase env mouse keyboard
          (calculate_mouse_ray env.viewport mouse env.view_projector env.terrain) world)
        batch).1 := rfl

/-- Structure of one selection pass: either no entity is eligible and
the world is unchanged, or exactly the first eligible entity gets its
selected flag set and every other entity is untouched. -/
theorem selectFirst_structure (env : Env) (ray : MouseRay) (w : List WorldEntity) :
    ((∀ x ∈ w, hitEligible env ray x = false) ∧ selectFirst env ray w = w) ∨
    (∃ l e r, w = l ++ e :: r ∧ (∀ x ∈ l, hitEligible env ray x = false) ∧
      hitEligible env ray e = true ∧
      selectFirst env ray w = l ++ { e with selected := true } :: r) := by
  induction w with
  | nil => exact Or.inl ⟨by simp, rfl⟩
  | cons e rest ih =>
    by_cases h : hitEligible env ray e = true
    · refine Or.inr ⟨[], e, rest, rfl, by simp, h, ?_⟩
      simp [selectFirst, h]
    · have hf : hitEligible env ray e = false := by simpa using h
      rcases ih with ⟨hall, heq⟩ | ⟨l, x, r, hw, hl, hx, heq⟩
      · refine Or.inl ⟨?_, ?_⟩
        · intro y hy
          rcases List.mem_cons.1 hy with h1 | h2
          · subst h1; exact hf
          · exact hall y h2
        · simp [selectFirst, hf, heq]
      · refine Or.inr ⟨e :: l, x, r, by rw [hw]; rfl, ?_, hx, ?_⟩
        · intro y hy
          rcases List.mem_cons.1 hy with h1 | h2
          · subst h1; exact hf
          · exact hl y h2
        · simp [selectFirst, hf, heq]

/-- Claim C5: for every primary-click release event, at most one entity
is newly marked selected: relative to the base selection state (cleared
unless the additive modifier is held), the resulting world is either
unchanged, or differs in exactly the first eligible ray hit, whose
selected flag is set. -/
theorem at_most_one_new_selection (env : Env) (mouse : MouseState)
    (keyboard : KeyboardKeyStates) (world base : List WorldEntity)
    (batch : List (Nat × Action)) (decals : List SpawnedDecal) (ray : MouseRay)
    (hleft : mouse.leftKeyState = KeyState.TransitionUp)
    (hray : ray = calculate_mouse_ray env.viewport mouse env.view_projector env.terrain)
    (hbase : base = if keyboard.shiftLeftUp then clearAll world else world) :
    ((∀ x ∈ base, hitEligible env ray x = false) ∧
      (update env mouse keyboard world batch decals).world = base) ∨
    (∃ l e r, base = l ++ e :: r ∧ (∀ x ∈ l, hitEligible env ray x = false) ∧
      hitEligible env ray e = true ∧
      (update env mouse keyboard world batch decals).world =
        l ++ { e with selected := true } :: r) := by
  subst hray
  subst hbase
  rw [update_world_eq]
  unfold selectionPhase
  rw [if_pos hleft]
  exact selectFirst_structure env _ _

/-- Witness for at_most_one_new_selection at a concrete input: one local
on-screen unit under the cursor. -/
theorem at_most_one_new_selection_wit :
    ((∀ x ∈ clearAll [entLocal], hitEligible envC rayUC x = false) ∧
      (update envC mouseLeftC kbC [entLocal] [] []).world = clearAll [entLocal]) ∨
    (∃ l e r, clearAll [entLocal] = l ++ e :: r ∧
      (∀ x ∈ l, hitEligible envC rayUC x = false) ∧
      hitEligible envC rayUC e = true ∧
      (update envC mouseLeftC kbC [entLocal] [] []).world =
        l ++ { e with selected := true } :: r) :=
  at_most_one_new_selection envC mouseLeftC kbC [entLocal] (clearAll [entLocal]) [] []
    rayUC rfl rfl rfl

/-- Clearing after a selection pass is the same as clearing directly:
the selection pass only ever sets selected flags. -/
theorem clearAll_selectFirst (env : Env) (ray : MouseRay) (v : List WorldEntity) :
    clearAll (selectFirst env ray v) = clearAll v := by
  induction v with
  | nil => rfl
  | cons e rest ih =>
    by_cases h : hitEligible env ray e = true
    · simp [selectFirst, h, clearAll]
    · have hf : hitEligible env ray e = false := by simpa using h
      simp only [selectFirst, hf, Bool.false_eq_true, if_false, clearAll, List.map_cons]
      simpa [clearAll] using ih

/-- Clearing is idempotent. -/
theorem clearAll_clearAll (v : List WorldEntity) : clearAll (clearAll v) = clearAll v := by
  induction v with
  | nil => rfl
  | cons e rest ih =>
    simp only [clearAll, List.map_cons] at ih ⊢
    rw [ih]

/-- Selection eligibility ignores the selected flag. -/
theorem hitEligible_clear (env : Env) (ray : MouseRay) (e : WorldEntity) :
    hitEligible env ray { e with selected := false } = hitEligible env ray e := rfl

/-- The first eligible hit is unchanged by clearing the selection. -/
theorem firstHitId_clearAll (env : Env) (ray : MouseRay) (v : List WorldEntity) :
    firstHitId env ray (clearAll v) = firstHitId env ray v := by
  induction v with
  | nil => rfl
  | cons e rest ih =>
    simp only [clearAll, List.map_cons, firstHitId, hitEligible_clear]
    by_cases h : hitEligible env ray e = true
    · simp [h]
    · have hf : hitEligible env ray e = false := by simpa using h
      simpa [hf, clearAll] using ih

/-- After a selection pass over a fully unselected world, the selected
entities are exactly the first eligible hit, if any. -/
theorem selectFirst_selected_ids (env : Env) (ray : MouseRay) (v : List WorldEntity)
    (hv : ∀ x ∈ v, x.selected = false) :
    ((selectFirst env ray v).filter fun e => e.selected).map (fun e => e.id) =
      (firstHitId env ray v).toList := by
  induction v with
  | nil => rfl
  | cons e rest ih =>
    by_cases h : hitEligible env ray e = true
    · have hrest : rest.filter (fun e => e.selected) = [] := by
        rw [List.filter_eq_nil_iff]
        intro a ha
        simp [hv a (List.mem_cons_of_mem _ ha)]
      simp [selectFirst, h, firstHitId, hrest]
    · have hf : hitEligible env ray e = false := by simpa using h
      have he : e.selected = false := hv e (List.mem_cons_self _ _)
      have ih2 := ih fun x hx => hv x (List.mem_cons_of_mem _ hx)
      simp [selectFirst, hf, firstHitId, he, ih2]

/-- Claim C6: selection via a primary click without the additive
modifier is idempotent, and leaves exactly the clicked unit (the first
eligible ray hit) selected, regardless of the prior selection set. -/
theorem selection_idempotent (env : Env) (mouse : MouseState)
    (keyboard : KeyboardKeyStates) (w : List WorldEntity)
    (b b2 : List (Nat × Action)) (d d2 : List SpawnedDecal) (ray : MouseRay)
    (hleft : mouse.leftKeyState = KeyState.TransitionUp)
    (hshift : keyboard.shiftLeftUp = true)
    (hray : ray = calculate_mouse_ray env.viewport mouse env.view_projector env.terrain) :
    (update env mouse keyboard (update env mouse keyboard w b d).world b2 d2).world =
      (update env mouse keyboard w b d).world ∧
    (((update env mouse keyboard w b d).world.filter fun e => e.selected).map
        fun e => e.id) =
      (firstHitId env ray w).toList := by
  subst hray
  rw [update_world_eq, update_world_eq]
  unfold selectionPhase
  rw [if_pos hleft, if_pos hleft, if_pos hshift, if_pos hshift]
  constructor
  · rw [clearAll_selectFirst, clearAll_clearAll]
  · rw [selectFirst_selected_ids env _ (clearAll w)
      (by intro x hx; rcases List.mem_map.1 hx with ⟨y, _, hy⟩; rw [← hy]),
      firstHitId_clearAll]

/-- Witness for selection_idempotent at a concrete input. -/
theorem selection_idempotent_wit :
    (update envC mouseLeftC kbC (update envC mouseLeftC kbC [entLocal] [] []).world [] []).world =
      (update envC mouseLeftC kbC [entLocal] [] []).world ∧
    (((update envC mouseLeftC kbC [entLocal] [] []).world.filter fun e => e.selected).map
        fun e => e.id) =
      (firstHitId envC rayUC [entLocal]).toList :=
  selection_idempotent envC mouseLeftC kbC [entLocal] [] [] [] [] rayUC rfl rfl rfl

/-- Counterexample to claim C2 as stated: when both buttons transition
from pressed to released in the same tick, evaluating the Command
Queuer before the Selection Updater reads the pre-click selection, so
the two orders disagree (here an unselected local unit under the cursor
is selected by the click, and only the selection-first order queues
commands for it). -/
theorem order_swap_cex :
    updateSwapped envC mouseBothC kbC [entLocal] [] [] ≠
      update envC mouseBothC kbC [entLocal] [] [] := by
  decide

/-- Claim C2 (amended): on every tick in which at most one of the two
pointer buttons transitions from pressed to released, the Selection
Updater and the Command Queuer may be evaluated in either order with
the same final selection set, action batch and spawned decals. -/
theorem order_independent_single_edge (env : Env) (mouse : MouseState)
    (keyboard : KeyboardKeyStates) (world : List WorldEntity)
    (batch : List (Nat × Action)) (decals : List SpawnedDecal)
    (h : ¬(mouse.leftKeyState = KeyState.TransitionUp ∧
           mouse.rightKeyState = KeyState.TransitionUp)) :
    updateSwapped env mouse keyboard world batch decals =
      update env mouse keyboard world batch decals := by
  by_cases hr : mouse.rightKeyState = KeyState.TransitionUp
  · have hl : ¬ mouse.leftKeyState = KeyState.TransitionUp := fun hc => h ⟨hc, hr⟩
    simp [update, updateSwapped, selectionPhase, hl]
  · simp [update, updateSwapped, commandPhase, hr]

/-- Witness for order_independent_single_edge at a concrete input. -/
theorem order_independent_single_edge_wit :
    updateSwapped envC mouseLeftC kbC [entLocal] [] [] =
      update envC mouseLeftC kbC [entLocal] [] [] :=
  order_independent_single_edge envC mouseLeftC kbC [entLocal] [] [] (by decide)

/-- Environment in which the grid cell under the cursor holds no
entities at all. -/
def envEmptyCell : Env := { envC with query_single_cell := fun _ => [] }

/-- Counterexample to claim C1 as stated: an entity that is not in the
grid cell under the cursor, whose bounding volume intersects the ray,
is nevertheless selected by a primary-button release, because the
selection loop performs no cell filtering. -/
theorem cell_filter_selection_cex :
    entLocal.id ∉ envEmptyCell.query_single_cell
        ⟨rayUC.world_coord.x, rayUC.world_coord.y⟩ ∧
    envEmptyCell.boxIntersectsRay (envEmptyCell.unitLookup 0 0) ⟨⟨0, 0, 0⟩, 0⟩
        rayUC.origin rayUC.direction = true ∧
    (update envEmptyCell mouseLeftC kbC [entLocal] [] []).world =
      [{ entLocal with selected := true }] := by
  decide

/-- Claim C1 (amended): an entity occupying a grid cell different from
the cell under the cursor is never evaluated for targetability: the
cell pre-filter rejects it as a candidate regardless of its bounding
volume.  It can, however, still be selected by a primary-button
release, since the selection loop performs no cell filtering. -/
theorem cell_filter_excludes_targetability (env : Env) (ray : MouseRay)
    (cellIds : List Nat) (selId : Nat) (attack_classes : List Nat)
    (other : WorldEntity) (hmem : other.id ∉ cellIds) :
    candidateTargetable env ray cellIds selId attack_classes other = false := by
  cases htr : other.transform <;> cases hun : other.unit <;>
    simp [candidateTargetable, htr, hun, hmem]

/-- Witness for cell_filter_excludes_targetability at a concrete
input: the hostile unit is outside the queried cell. -/
theorem cell_filter_excludes_targetability_wit :
    candidateTargetable envC rayUC [] 0 [3] entHostile = false :=
  cell_filter_excludes_targetability envC rayUC [] 0 [3] entHostile (by decide)

/-- One step of the command-queue loop appends exactly the commands of
the entity at the head and records whether it moved a unit. -/
theorem commandQueueLoop_cons (env : Env) (ray : MouseRay) (keyboard : KeyboardKeyStates)
    (e : WorldEntity) (rest : List WorldEntity) (acc : List (Nat × Action) × Bool) :
    commandQueueLoop env ray keyboard (e :: rest) acc =
      commandQueueLoop env ray keyboard rest
        (acc.1 ++ commandsFor env ray keyboard e,
         acc.2 || !(commandsFor env ray keyboard e).isEmpty) := by
  obtain ⟨b, m⟩ := acc
  cases hun : e.unit with
  | none => simp [commandQueueLoop, commandsFor, hun]
  | some u =>
    cases htr : e.transform with
    | none => simp [commandQueueLoop, commandsFor, hun, htr]
    | some t =>
      by_cases hs : e.selected = true
      · by_cases hp : u.player_id = env.local_player_id
        · by_cases hc : keyboard.ctrlLeftUp = true
          · simp [commandQueueLoop, commandsFor, hun, htr, hs, hp, hc, List.append_assoc]
          · have hc2 : keyboard.ctrlLeftUp = false := by simpa using hc
            simp [commandQueueLoop, commandsFor, hun, htr, hs, hp, hc2]
        · simp [commandQueueLoop, commandsFor, hun, htr, hs, hp]
      · have hs2 : e.selected = false := by simpa using hs
        simp [commandQueueLoop, commandsFor, hun, htr, hs2]

/-- The batch after the command-queue loop is the incoming batch plus
the concatenated per-entity commands, in iteration order. -/
theorem commandQueueLoop_batch (env : Env) (ray : MouseRay) (keyboard : KeyboardKeyStates)
    (v : List WorldEntity) (b : List (Nat × Action)) (m : Bool) :
    (commandQueueLoop env ray keyboard v (b, m)).1 =
      b ++ v.flatMap (commandsFor env ray keyboard) := by
  induction v generalizing b m with
  | nil => simp [commandQueueLoop]
  | cons e rest ih =>
    rw [commandQueueLoop_cons]
    rw [ih]
    simp [List.flatMap_cons, List.append_assoc]

/-- Per-entity queues distribute over batch concatenation. -/
theorem queueOf_append (a c : List (Nat × Action)) (i : Nat) :
    queueOf (a ++ c) i = queueOf a i ++ queueOf c i := by
  simp [queueOf, List.filter_append]

/-- Commands issued for an entity only land in that entity's queue. -/
theorem queueOf_commandsFor_ne (env : Env) (ray : MouseRay) (keyboard : KeyboardKeyStates)
    (e : WorldEntity) (i : Nat) (h : e.id ≠ i) :
    queueOf (commandsFor env ray keyboard e) i = [] := by
  cases hun : e.unit <;> cases htr : e.transform <;>
    by_cases hc : keyboard.ctrlLeftUp = true <;>
      simp [commandsFor, queueOf, hun, htr, hc, h] <;>
      first
        | (rintro a b - - (⟨rfl, -⟩ | ⟨rfl, -⟩) <;> exact h)
        | (rintro a b - - rfl -; exact h)

/-- If no entity of the list has id i, the loop leaves queue i empty. -/
theorem queueOf_flatMap_ne (env : Env) (ray : MouseRay) (keyboard : KeyboardKeyStates)
    (v : List WorldEntity) (i : Nat) (h : ∀ x ∈ v, x.id ≠ i) :
    queueOf (v.flatMap (commandsFor env ray keyboard)) i = [] := by
  induction v with
  | nil => simp [queueOf]
  | cons x rest ih =>
    rw [List.flatMap_cons, queueOf_append,
      queueOf_commandsFor_ne env ray keyboard x i (h x (List.mem_cons_self _ _)),
      ih fun y hy => h y (List.mem_cons_of_mem _ hy)]
    rfl

/-- If every entity of the list with id i issues no commands, queue i is
left empty by the loop. -/
theorem queueOf_flatMap_untouched (env : Env) (ray : MouseRay)
    (keyboard : KeyboardKeyStates) (v : List WorldEntity) (i : Nat)
    (h : ∀ e ∈ v, e.id = i → commandsFor env ray keyboard e = []) :
    queueOf (v.flatMap (commandsFor env ray keyboard)) i = [] := by
  induction v with
  | nil => simp [queueOf]
  | cons x rest ih =>
    rw [List.flatMap_cons, queueOf_append,
      ih fun y hy => h y (List.mem_cons_of_mem _ hy)]
    by_cases hx : x.id = i
    · rw [h x (List.mem_cons_self _ _) hx]
      rfl
    · rw [queueOf_commandsFor_ne env ray keyboard x i hx]
      rfl

/-- With pairwise distinct ids, the queue of a member entity after the
loop is exactly the queue its own commands produce. -/
theorem queueOf_flatMap_mem (env : Env) (ray : MouseRay) (keyboard : KeyboardKeyStates)
    (v : List WorldEntity) (e : WorldEntity) (hmem : e ∈ v)
    (hnodup : (v.map fun x => x.id).Nodup) :
    queueOf (v.flatMap (commandsFor env ray keyboard)) e.id =
      queueOf (commandsFor env ray keyboard e) e.id := by
  induction v with
  | nil => cases hmem
  | cons x rest ih =>
    rw [List.map_cons] at hnodup
    have hnd := List.nodup_cons.1 hnodup
    rw [List.flatMap_cons, queueOf_append]
    rcases List.mem_cons.1 hmem with h1 | h2
    · subst h1
      have hne : ∀ y ∈ rest, y.id ≠ e.id := by
        intro y hy hcontra
        exact hnd.1 (List.mem_map.2 ⟨y, hy, hcontra⟩)
      rw [queueOf_flatMap_ne env ray keyboard rest e.id hne, List.append_nil]
    · have hx : x.id ≠ e.id := by
        intro hcontra
        exact hnd.1 (hcontra ▸ List.mem_map.2 ⟨e, h2, rfl⟩)
      rw [queueOf_commandsFor_ne env ray keyboard x e.id hx, List.nil_append]
      exact ih h2 hnd.2

/-- The selection pass does not change the id column of the world. -/
theorem selectFirst_ids (env : Env) (ray : MouseRay) (v : List WorldEntity) :
    (selectFirst env ray v).map (fun e => e.id) = v.map fun e => e.id := by
  induction v with
  | nil => rfl
  | cons e rest ih =>
    by_cases h : hitEligible env ray e = true
    · simp [selectFirst, h]
    · have hf : hitEligible env ray e = false := by simpa using h
      simp [selectFirst, hf, ih]

/-- Clearing the selection does not change the id column. -/
theorem clearAll_ids (v : List WorldEntity) :
    (clearAll v).map (fun e => e.id) = v.map fun e => e.id := by
  simp [clearAll, List.map_map]

/-- The whole selection phase does not change the id column. -/
theorem selectionPhase_ids (env : Env) (mouse : MouseState)
    (keyboard : KeyboardKeyStates) (ray : MouseRay) (v : List WorldEntity) :
    (selectionPhase env mouse keyboard ray v).map (fun e => e.id) =
      v.map fun e => e.id := by
  unfold selectionPhase
  by_cases hl : mouse.leftKeyState = KeyState.TransitionUp
  · rw [if_pos hl, selectFirst_ids]
    by_cases hs : keyboard.shiftLeftUp = true
    · rw [if_pos hs, clearAll_ids]
    · rw [if_neg hs]
  · rw [if_neg hl]

/-- The queue a moving entity receives from its own commands: a clear
followed by a move when the append modifier is not held (control up),
just the move when it is held. -/
theorem queueOf_commandsFor_mover (env : Env) (ray : MouseRay)
    (keyboard : KeyboardKeyStates) (e : WorldEntity) (u : UnitComponent)
    (t : TransformComponent) (hun : e.unit = some u) (htr : e.transform = some t)
    (hs : e.selected = true) (hp : u.player_id = env.local_player_id) :
    queueOf (commandsFor env ray keyboard e) e.id =
      (if keyboard.ctrlLeftUp
       then [Action.ClearQueue, Action.MoveToPosition ⟨env.find_path t.position
         ray.world_coord (env.unitLookup u.civilization_id u.unit_id).terrain_restriction⟩]
       else [Action.MoveToPosition ⟨env.find_path t.position ray.world_coord
         (env.unitLookup u.civilization_id u.unit_id).terrain_restriction⟩]) := by
  by_cases hc : keyboard.ctrlLeftUp = true
  · simp [commandsFor, queueOf, hun, htr, hs, hp, hc]
  · have hc2 : keyboard.ctrlLeftUp = false := by simpa using hc
    simp [commandsFor, queueOf, hun, htr, hs, hp, hc2]

/-- Claim C4: on a secondary-button release, every entity that is
selected (in the post-click selection the source iterates over) and
owned by the local player has exactly ClearQueue followed by
MoveToPosition appended to its queue when the append modifier is not
held, and exactly MoveToPosition appended (prior contents preserved)
when it is held; queues of ids for which no such entity issues commands
are untouched. -/
theorem command_queue_appends (env : Env) (mouse : MouseState)
    (keyboard : KeyboardKeyStates) (world : List WorldEntity)
    (batch : List (Nat × Action)) (decals : List SpawnedDecal) (ray : MouseRay)
    (hright : mouse.rightKeyState = KeyState.TransitionUp)
    (hray : ray = calculate_mouse_ray env.viewport mouse env.view_projector env.terrain)
    (hnodup : (world.map fun e => e.id).Nodup) :
    (∀ e ∈ (update env mouse keyboard world batch decals).world, ∀ u t,
      e.unit = some u → e.transform = some t → e.selected = true →
      u.player_id = env.local_player_id →
      queueOf (update env mouse keyboard world batch decals).batch e.id =
        queueOf batch e.id ++
          (if keyboard.ctrlLeftUp
           then [Action.ClearQueue, Action.MoveToPosition ⟨env.find_path t.position
             ray.world_coord (env.unitLookup u.civilization_id u.unit_id).terrain_restriction⟩]
           else [Action.MoveToPosition ⟨env.find_path t.position ray.world_coord
             (env.unitLookup u.civilization_id u.unit_id).terrain_restriction⟩])) ∧
    (∀ i, (∀ e ∈ (update env mouse keyboard world batch decals).world,
        e.id = i → commandsFor env ray keyboard e = []) →
      queueOf (update env mouse keyboard world batch decals).batch i = queueOf batch i) := by
  have hworld : (update env mouse keyboard world batch decals).world =
      selectionPhase env mouse keyboard ray world := by
    rw [update_world_eq, ← hray]
  have hbatch : (update env mouse keyboard world batch decals).batch =
      batch ++ (selectionPhase env mouse keyboard ray world).flatMap
        (commandsFor env ray keyboard) := by
    rw [update_batch_eq, ← hray]
    unfold commandPhase
    rw [if_pos hright]
    exact commandQueueLoop_batch env ray keyboard _ batch false
  have hnodup2 : ((selectionPhase env mouse keyboard ray world).map fun e => e.id).Nodup := by
    rw [selectionPhase_ids]
    exact hnodup
  constructor
  · intro e hmem u t hun htr hs hp
    rw [hworld] at hmem
    rw [hbatch, queueOf_append,
      queueOf_flatMap_mem env ray keyboard _ e hmem hnodup2,
      queueOf_commandsFor_mover env ray keyboard e u t hun htr hs hp]
  · intro i hq
    rw [hworld] at hq
    rw [hbatch, queueOf_append,
      queueOf_flatMap_untouched env ray keyboard _ i hq, List.append_nil]

/-- Witness for command_queue_appends at a concrete input: one selected
local unit, right button released, append modifier not held. -/
theorem command_queue_appends_wit :
    (∀ e ∈ (update envC mouseRightC kbC [entLocalSel] [] []).world, ∀ u t,
      e.unit = some u → e.transform = some t → e.selected = true →
      u.player_id = envC.local_player_id →
      queueOf (update envC mouseRightC kbC [entLocalSel] [] []).batch e.id =
        queueOf [] e.id ++
          (if kbC.ctrlLeftUp
           then [Action.ClearQueue, Action.MoveToPosition ⟨envC.find_path t.position
             rayUC.world_coord (envC.unitLookup u.civilization_id u.unit_id).terrain_restriction⟩]
           else [Action.MoveToPosition ⟨envC.find_path t.position rayUC.world_coord
             (envC.unitLookup u.civilization_id u.unit_id).terrain_restriction⟩])) ∧
    (∀ i, (∀ e ∈ (update envC mouseRightC kbC [entLocalSel] [] []).world,
        e.id = i → commandsFor envC rayUC kbC e = []) →
      queueOf (update envC mouseRightC kbC [entLocalSel] [] []).batch i = queueOf [] i) :=
  command_queue_appends envC mouseRightC kbC [entLocalSel] [] [] rayUC rfl rfl (by decide)

/-- Claim C3: for a selected combat-capable attacker A with non-empty
attack-class set and a candidate B that passes every filter of the
inner loop (in the queried cell, on screen, distinct from A, not
locally owned, not NonInteracting, has armor parameters, selection box
intersects the ray), B is judged targetable iff B's armor-class set is
empty or shares an element with A's attack-class set; and whenever the
compatibility holds the cursor is marked over a targetable entity. -/
theorem targetable_iff_compat (env : Env) (ray : MouseRay) (cellIds : List Nat)
    (world : List WorldEntity) (A B : WorldEntity) (uA uB : UnitComponent)
    (bpA bpB : BattleParams) (tB : TransformComponent)
    (hAmem : A ∈ world) (hBmem : B ∈ world)
    (hAsel : A.selected = true)
    (hAunit : A.unit = some uA)
    (hAbp : (env.unitLookup uA.civilization_id uA.unit_id).battle_params = some bpA)
    (hAatt : attackClassesOf bpA ≠ [])
    (hBtrans : B.transform = some tB)
    (hBunit : B.unit = some uB)
    (hBon : B.on_screen = true)
    (hBcell : B.id ∈ cellIds)
    (hBne : B.id ≠ A.id)
    (hBplayer : uB.player_id ≠ env.local_player_id)
    (hBmode : (env.unitLookup uB.civilization_id uB.unit_id).interaction_mode ≠
      InteractionMode.NonInteracting)
    (hBbp : (env.unitLookup uB.civilization_id uB.unit_id).battle_params = some bpB)
    (hBhit : env.boxIntersectsRay (env.unitLookup uB.civilization_id uB.unit_id) tB
      ray.origin ray.direction = true) :
    (candidateTargetable env ray cellIds A.id (attackClassesOf bpA) B = true ↔
      (armorClassesOf bpB = [] ∨ ∃ c ∈ attackClassesOf bpA, c ∈ armorClassesOf bpB)) ∧
    ((armorClassesOf bpB = [] ∨ ∃ c ∈ attackClassesOf bpA, c ∈ armorClassesOf bpB) →
      cursorOverTargetable env ray cellIds world = true) := by
  have hiff : candidateTargetable env ray cellIds A.id (attackClassesOf bpA) B = true ↔
      (armorClassesOf bpB = [] ∨ ∃ c ∈ attackClassesOf bpA, c ∈ armorClassesOf bpB) := by
    simp [candidateTargetable, hBtrans, hBunit, hBon, hBcell, hBne, hBplayer, hBmode,
      hBbp, hBhit, List.isEmpty_iff, List.any_eq_true]
  refine ⟨hiff, fun hc => ?_⟩
  unfold cursorOverTargetable
  rw [List.any_eq_true]
  refine ⟨A, hAmem, ?_⟩
  unfold attackerFindsTarget
  rw [hAsel, hAunit]
  simp only [Bool.true_and]
  rw [hAbp]
  simp [List.isEmpty_iff, hAatt, List.any_eq_true]
  exact ⟨B, hBmem, hiff.mpr hc⟩

/-- Witness for targetable_iff_compat at a concrete input: the attacker
and the hostile candidate share attack and armor class 3. -/
theorem targetable_iff_compat_wit :
    (candidateTargetable envC rayUC [2] entLocalSel.id
        (attackClassesOf ⟨[(3, 1)], [(3, 1)]⟩) entHostile = true ↔
      (armorClassesOf ⟨[(3, 1)], [(3, 1)]⟩ = [] ∨
        ∃ c ∈ attackClassesOf ⟨[(3, 1)], [(3, 1)]⟩,
          c ∈ armorClassesOf ⟨[(3, 1)], [(3, 1)]⟩)) ∧
    ((armorClassesOf ⟨[(3, 1)], [(3, 1)]⟩ = [] ∨
        ∃ c ∈ attackClassesOf ⟨[(3, 1)], [(3, 1)]⟩,
          c ∈ armorClassesOf ⟨[(3, 1)], [(3, 1)]⟩) →
      cursorOverTargetable envC rayUC [2] [entLocalSel, entHostile] = true) :=
  targetable_iff_compat envC rayUC [2] [entLocalSel, entHostile] entLocalSel entHostile
    ⟨0, 0, 0⟩ ⟨0, 0, 1⟩ ⟨[(3, 1)], [(3, 1)]⟩ ⟨[(3, 1)], [(3, 1)]⟩ ⟨⟨0, 0, 0⟩, 0⟩
    (by decide) (by decide) rfl rfl rfl (by decide) rfl rfl rfl (by decide)
    (by decide) (by decide) (by decide) rfl (by decide)

/-- Claim C9: when the cursor is over a targetable entity the
targetability pass spawns exactly one decal, at the ray ground point,
with the attack-intent variant, whose image index differs from the
move-intent variant's. -/
theorem attack_decal_spec (env : Env) (mouse : MouseState)
    (keyboard : KeyboardKeyStates) (world : List WorldEntity)
    (batch : List (Nat × Action)) (decals : List SpawnedDecal) (ray : MouseRay)
    (hray : ray = calculate_mouse_ray env.viewport mouse env.view_projector env.terrain)
    (ht : cursorOverTargetable env ray
      (env.query_single_cell ⟨ray.world_coord.x, ray.world_coord.y⟩) world = true) :
    (update env mouse keyboard world batch decals).decals =
      (decals ++ [attackIntentDecal ray.world_coord]) ++
        (if (commandPhase env mouse keyboard ray
              (selectionPhase env mouse keyboard ray world) batch).2
         then [moveIntentDecal ray.world_coord] else []) ∧
    (attackIntentDecal ray.world_coord).decal.imageIdx ≠
      (moveIntentDecal ray.world_coord).decal.imageIdx := by
  subst hray
  constructor
  · simp only [update, ht, if_true]
    by_cases hm : (commandPhase env mouse keyboard
        (calculate_mouse_ray env.viewport mouse env.view_projector env.terrain)
        (selectionPhase env mouse keyboard
          (calculate_mouse_ray env.viewport mouse env.view_projector env.terrain) world)
        batch).2 = true
    · simp [hm]
    · have hm2 := by simpa using hm
      simp [hm2]
  · simp [attackIntentDecal, moveIntentDecal]

/-- Witness for attack_decal_spec at a concrete input: selected local
attacker, hostile candidate in the cell under the cursor. -/
theorem attack_decal_spec_wit :
    (update envC mouseNoneC kbC [entLocalSel, entHostile] [] []).decals =
      (([] : List SpawnedDecal) ++ [attackIntentDecal rayUC.world_coord]) ++
        (if (commandPhase envC mouseNoneC kbC rayUC
              (selectionPhase envC mouseNoneC kbC rayUC [entLocalSel, entHostile]) []).2
         then [moveIntentDecal rayUC.world_coord] else []) ∧
    (attackIntentDecal rayUC.world_coord).decal.imageIdx ≠
      (moveIntentDecal rayUC.world_coord).decal.imageIdx :=
  attack_decal_spec envC mouseNoneC kbC [entLocalSel, entHostile] [] [] rayUC rfl
    (by decide)

/-- Claim C10: the targetability pass never writes selection flags or
queues: on a tick with no button edge the update leaves the world and
the batch unchanged, and at most appends the single attack decal. -/
theorem targetability_pass_frame (env : Env) (mouse : MouseState)
    (keyboard : KeyboardKeyStates) (world : List WorldEntity)
    (batch : List (Nat × Action)) (decals : List SpawnedDecal)
    (hl : mouse.leftKeyState ≠ KeyState.TransitionUp)
    (hr : mouse.rightKeyState ≠ KeyState.TransitionUp) :
    (update env mouse keyboard world batch decals).world = world ∧
    (update env mouse keyboard world batch decals).batch = batch ∧
    ((update env mouse keyboard world batch decals).decals = decals ∨
      (update env mouse keyboard world batch decals).decals =
        decals ++ [attackIntentDecal (calculate_mouse_ray env.viewport mouse
          env.view_projector env.terrain).world_coord]) := by
  refine ⟨?_, ?_, ?_⟩
  · simp [update, selectionPhase, commandPhase, hl, hr]
  · simp [update, selectionPhase, commandPhase, hl, hr]
  · by_cases ht : cursorOverTargetable env
        (calculate_mouse_ray env.viewport mouse env.view_projector env.terrain)
        (env.query_single_cell
          ⟨(calculate_mouse_ray env.viewport mouse env.view_projector env.terrain).world_coord.x,
           (calculate_mouse_ray env.viewport mouse env.view_projector env.terrain).world_coord.y⟩)
        world = true
    · right
      simp [update, selectionPhase, commandPhase, hl, hr, ht]
    · left
      have ht2 := by simpa using ht
      simp [update, selectionPhase, commandPhase, hl, hr, ht2]

/-- Witness for targetability_pass_frame at a concrete input. -/
theorem targetability_pass_frame_wit :
    (update envC mouseNoneC kbC [entLocal] [] []).world = [entLocal] ∧
    (update envC mouseNoneC kbC [entLocal] [] []).batch = [] ∧
    ((update envC mouseNoneC kbC [entLocal] [] []).decals = [] ∨
      (update envC mouseNoneC kbC [entLocal] [] []).decals =
        [] ++ [attackIntentDecal (calculate_mouse_ray envC.viewport mouseNoneC
          envC.view_projector envC.terrain).world_coord]) :=
  targetability_pass_frame envC mouseNoneC kbC [entLocal] [] [] (by decide) (by decide)

end Chariot
